import Mathlib

/-!
Verification of the scheduling core of the CRT backend (Django app
`cloudrad.schedules`): the `ScheduleEvent` data model, the date-range
conflict queries, template application and bulk creation from
`schedules/views.py`, and the `duration_hours` computation from
`schedules/models.py`.

Modelling conventions (shallow embedding):
* Dates are `Nat`, counted in days from an epoch that falls on a Monday,
  so Python's `date.weekday()` (Monday = 0) is `d % 7` and
  `date + timedelta(days = k)` is `d + k`.
* Times of day are `Nat` minutes since midnight (`< 1440`); a
  `datetime.combine(date, time)` instant is `date * 1440 + time` minutes.
* Database rows live in an explicit `DB` state (a list of events plus an
  id counter standing in for primary-key generation); Django queryset
  filters become list predicates, `transaction.atomic` rollback becomes
  "on error the caller keeps the pre-call state".
* Users and foreign keys are referenced by `Nat` ids; `get_object_or_404`
  becomes a lookup in an explicit directory returning `Option`.
-/

/-- Event status, from `ScheduleEvent.STATUS_CHOICES` in
`schedules/models.py`. -/
inductive EStatus where
  | scheduled
  | confirmed
  | cancelled
  | completed
deriving DecidableEq, Repr

/-- The statuses that participate in conflict detection: every conflict
query in `schedules/views.py` filters `status__in=['scheduled', 'confirmed']`. -/
def EStatus.isActive : EStatus → Bool
  | .scheduled => true
  | .confirmed => true
  | .cancelled => false
  | .completed => false

/-- A `Shift` row (`schedules/models.py`), restricted to the fields the
scheduling flows read: `name`, `start_time`, `end_time`. -/
structure ShiftRec where
  name : String
  start_time : Nat
  end_time : Nat
deriving DecidableEq, Repr

/-- A `ScheduleEvent` row (`schedules/models.py`), restricted to the fields
the scheduling flows read or write. -/
structure Event where
  id : Nat
  user : Nat
  title : String
  event_type : String
  start_date : Nat
  end_date : Nat
  start_time : Nat
  end_time : Nat
  all_day : Bool
  shift : Option ShiftRec
  status : EStatus
  department : String
deriving DecidableEq, Repr

/-- The `ScheduleEvent` table plus the primary-key generator. -/
structure DB where
  events : List Event
  nextId : Nat
deriving DecidableEq, Repr

/-- A `User` row (`users/models.py`), restricted to what the scheduling
flows read: `id`, `get_full_name()`, and the optional `department`
attribute (`user.department if hasattr(user, 'department') else ''`). -/
structure UserRec where
  id : Nat
  full_name : String
  department : Option String
deriving DecidableEq, Repr

/-- A `TemplateDay` row (`schedules/models.py`): a weekday (0 = Monday ..
6 = Sunday) optionally mapped to a shift. -/
structure TemplateDay where
  day_of_week : Nat
  shift : Option ShiftRec
deriving DecidableEq, Repr

/-- A `ScheduleTemplate` row together with its `days`. -/
structure TemplateRec where
  id : Nat
  days : List TemplateDay
deriving DecidableEq, Repr

/-- The referenced tables the scheduling flows resolve ids against
(`get_object_or_404(User, ...)`, `get_object_or_404(ScheduleTemplate, ...)`). -/
structure Env where
  users : List UserRec
  templates : List TemplateRec
deriving Repr

def findUser (env : Env) (uid : Nat) : Option UserRec :=
  env.users.find? (fun u => u.id == uid)

def findTemplate (env : Env) (tid : Nat) : Option TemplateRec :=
  env.templates.find? (fun t => t.id == tid)

/-- The error kinds surfaced by the scheduling flows (spec section 7 names
them `InvalidRangeError`, `ConflictError`, `NotFoundError`; `valueError`
models a Python `ValueError` escaping a view). -/
inductive Err where
  | invalidRange
  | conflict
  | notFound
  | valueError
deriving DecidableEq, Repr

/-- The conflict query of `check_conflicts` (`schedules/views.py` lines
972-980): events of `u` with status in {scheduled, confirmed} whose date
range `[start_date, end_date]` meets `[s, e]`
(`start_date__lte=end_date_param, end_date__gte=start_date_param`), with
the event `excl` excluded when the caller passed one
(`if event_id: conflicts = conflicts.exclude(id=event_id)`). -/
def check_conflicts (events : List Event) (u s e : Nat) (excl : Option Nat) : Bool :=
  events.any fun ev =>
    ev.user == u && ev.status.isActive && decide (ev.start_date ≤ e) &&
      decide (s ≤ ev.end_date) &&
      (match excl with
       | none => true
       | some i => ev.id != i)

/-- `check_schedule_conflicts` (`schedules/views.py` lines 852-858): the
single-day conflict query used by template application
(`start_date__lte=event_date, end_date__gte=event_date`). -/
def check_schedule_conflicts (events : List Event) (u event_date : Nat) : Bool :=
  events.any fun ev =>
    ev.user == u && ev.status.isActive && decide (ev.start_date ≤ event_date) &&
      decide (event_date ≤ ev.end_date)

/-- `calculate_event_date` (`schedules/views.py` lines 848-850):
`days_to_add = (template_day.day_of_week - start_date.weekday()) % 7`,
with Python's nonnegative `%` on a positive modulus (= `Int.emod`), then
`start_date + timedelta(days=days_to_add)`. -/
def calculate_event_date (template_day : TemplateDay) (start_date : Nat) : Nat :=
  start_date + (((template_day.day_of_week : Int) - ((start_date % 7 : Nat) : Int)) % 7).toNat

/-- Rounding to two decimal places, `round(x, 2)`. The quantity rounded in
`duration_hours` is a whole number of minutes divided by 60, so `x * 100`
has fractional part 0, 1/3 or 2/3 and never lies exactly between two
integers; every rounding mode (Python's round-half-to-even included)
agrees there, so Mathlib's `round` is faithful. -/
def roundTo2 (x : ℚ) : ℚ :=
  ((round (x * 100) : ℤ) : ℚ) / 100

/-- `ScheduleEvent.duration_hours` (`schedules/models.py` lines 121-136):
8.0 for all-day events; otherwise the difference of the two
`datetime.combine` instants in hours, the end instant pushed forward one
day when `end_date == start_date and end_time < start_time`, rounded to
two decimals. -/
def duration_hours (ev : Event) : ℚ :=
  if ev.all_day then 8
  else
    let start_dt : Nat := ev.start_date * 1440 + ev.start_time
    let end_dt : Nat := ev.end_date * 1440 + ev.end_time
    let end_dt : Nat :=
      if ev.end_date == ev.start_date && decide (ev.end_time < ev.start_time)
      then end_dt + 1440 else end_dt
    roundTo2 (((end_dt : ℚ) - (start_dt : ℚ)) / 60)

/-- `ScheduleEvent.clean` (`schedules/models.py` lines 108-116): raises a
`ValidationError` exactly when `end_date < start_date` (the time check for
non-all-day events is an explicit `pass`). -/
def ScheduleEvent_clean (start_date end_date : Nat) : Except Err Unit :=
  if end_date < start_date then .error .invalidRange else .ok ()

/-- A skip-list entry of template application (`schedules/views.py` lines
838-843): `{user_id, user_name, date, reason}`. -/
structure TSkip where
  user_id : Nat
  user_name : String
  date : Nat
  reason : String
deriving DecidableEq, Repr

/-- A skip-list entry of bulk creation (`schedules/views.py` lines
319-323): `{user_id, user_name, reason}` (no date). -/
structure BSkip where
  user_id : Nat
  user_name : String
  reason : String
deriving DecidableEq, Repr

/-- Accumulated result of template application: the database plus the
`created_events` and `skipped_users` lists. -/
structure TemplateOut where
  db : DB
  created : List Event
  skipped : List TSkip
deriving Repr

/-- The `ScheduleEvent.objects.create` call of the helper
`create_schedule_event` (`schedules/views.py` lines 860-874): a new row
with `title = shift.name - user.full_name`, `event_type='shift'`, a
single-day range at `event_date`, the times of the template day's shift,
`status='scheduled'` and the user's department (empty when absent). -/
def template_created_event (sh : ShiftRec) (user : UserRec) (event_date : Nat)
    (eid : Nat) : Event :=
  { id := eid
    user := user.id
    title := sh.name ++ " - " ++ user.full_name
    event_type := "shift"
    start_date := event_date
    end_date := event_date
    start_time := sh.start_time
    end_time := sh.end_time
    all_day := false
    shift := some sh
    status := .scheduled
    department := user.department.getD "" }

/-- One iteration of the loop body of `process_user_template_days`
(`schedules/views.py` lines 833-846): skip template days without a shift;
otherwise compute the event date, record a skip entry with reason
"Schedule conflict" when `check_schedule_conflicts` fires, and otherwise
create the event via `create_schedule_event`. -/
def template_day_step (user : UserRec) (start_date : Nat) (acc : TemplateOut)
    (template_day : TemplateDay) : TemplateOut :=
  match template_day.shift with
  | none => acc
  | some sh =>
    let event_date := calculate_event_date template_day start_date
    if check_schedule_conflicts acc.db.events user.id event_date then
      { acc with
        skipped := acc.skipped ++ [⟨user.id, user.full_name, event_date, "Schedule conflict"⟩] }
    else
      let ev := template_created_event sh user event_date acc.db.nextId
      { db := ⟨acc.db.events ++ [ev], acc.db.nextId + 1⟩
        created := acc.created ++ [ev]
        skipped := acc.skipped }

/-- `process_user_template_days` (`schedules/views.py` lines 833-846):
fold of the loop body over the template's days. -/
def process_user_template_days (template : TemplateRec) (user : UserRec)
    (start_date : Nat) (acc : TemplateOut) : TemplateOut :=
  template.days.foldl (template_day_step user start_date) acc

/-- The `for user_id in user_ids` loop of `process_template_application`
(`schedules/views.py` lines 826-829): resolve each user
(`get_object_or_404`, an unresolved id raises and aborts the whole
request) and process the template days for them. -/
def apply_template_loop (env : Env) (template : TemplateRec) (start_date : Nat) :
    List Nat → TemplateOut → Except Err TemplateOut
  | [], acc => .ok acc
  | uid :: rest, acc =>
    match findUser env uid with
    | none => .error .notFound
    | some user =>
      apply_template_loop env template start_date rest
        (process_user_template_days template user start_date acc)

/-- `process_template_application` (`schedules/views.py` lines 821-831):
resolve the template (`get_object_or_404`, fatal when absent), then for
each user id resolve the user (fatal when absent) and process the
template days. The loop runs inside `transaction.atomic()`; an error
therefore means the caller keeps the pre-call database. -/
def process_template_application (env : Env) (db : DB) (template_id : Nat)
    (start_date : Nat) (user_ids : List Nat) : Except Err TemplateOut :=
  match findTemplate env template_id with
  | none => .error .notFound
  | some template => apply_template_loop env template start_date user_ids ⟨db, [], []⟩

/-- `bulk_create_schedule_events` (`schedules/views.py` lines 306-340),
the loop inside `transaction.atomic()`: per user id, resolve the user
(fatal when absent), skip-and-record on conflict over the whole
`[start_date, end_date]` span; otherwise the source calls
`ScheduleEvent.objects.create(..., title=f-string over Shift.name,
start_time=Shift.start_time, end_time=Shift.end_time, shift=Shift, ...)`
where `Shift` is the MODEL CLASS, not a shift instance — Django's
foreign-key descriptor rejects the class with a `ValueError`, so the
create raises and the transaction rolls back. -/
def bulk_create_loop (env : Env) (start_date end_date : Nat) :
    List Nat → DB × List BSkip → Except Err (DB × List BSkip)
  | [], acc => .ok acc
  | uid :: rest, acc =>
    match findUser env uid with
    | none => .error .notFound
    | some user =>
      if check_conflicts acc.1.events user.id start_date end_date none then
        bulk_create_loop env start_date end_date rest
          (acc.1, acc.2 ++ [⟨user.id, user.full_name, "Schedule conflict"⟩])
      else
        .error .valueError

/-- `bulk_create_schedule_events` (`schedules/views.py` lines 306-340):
the validated request runs the per-user loop inside
`transaction.atomic()` starting from the current table and an empty skip
list. -/
def bulk_create_schedule_events (env : Env) (db : DB) (user_ids : List Nat)
    (start_date end_date : Nat) : Except Err (DB × List BSkip) :=
  bulk_create_loop env start_date end_date user_ids (db, [])

/-- What the scheduler persists on a successful create: the request's
fields with a fresh id and status `scheduled` (spec section 4.2: "On
success, persists the event with status `scheduled`"). -/
structure CreateReq where
  user : Nat
  title : String
  event_type : String
  start_date : Nat
  end_date : Nat
  start_time : Nat
  end_time : Nat
  all_day : Bool
  shift : Option ShiftRec
  department : String
deriving DecidableEq, Repr

def CreateReq.toEvent (req : CreateReq) (eid : Nat) : Event :=
  { id := eid
    user := req.user
    title := req.title
    event_type := req.event_type
    start_date := req.start_date
    end_date := req.end_date
    start_time := req.start_time
    end_time := req.end_time
    all_day := req.all_day
    shift := req.shift
    status := .scheduled
    department := req.department }

/-- Modelled from the spec: `createEvent` of section 4.2. The
`ScheduleEventCreateSerializer` that the view `create_schedule_event`
(`schedules/views.py` lines 211-232) delegates to is absent from the
source tree (`schedules/serializers.py` belongs to the alternate
day/assignment design), so the create pipeline follows the spec: validate
`endDate >= startDate` (the range check is also in the source, in
`ScheduleEvent.clean`), fail with `InvalidRangeError` otherwise; query the
conflict predicate for `(user, startDate, endDate)` and fail with
`ConflictError` on a hit; otherwise persist with status `scheduled`. -/
def createEvent (db : DB) (req : CreateReq) : Except Err (DB × Event) :=
  match ScheduleEvent_clean req.start_date req.end_date with
  | .error e => .error e
  | .ok _ =>
    if check_conflicts db.events req.user req.start_date req.end_date none then
      .error .conflict
    else
      let ev := req.toEvent db.nextId
      .ok (⟨db.events ++ [ev], db.nextId + 1⟩, ev)

/-- A partial-update payload: `none` leaves the field unchanged. -/
structure Patch where
  user : Option Nat := none
  title : Option String := none
  event_type : Option String := none
  start_date : Option Nat := none
  end_date : Option Nat := none
  start_time : Option Nat := none
  end_time : Option Nat := none
  all_day : Option Bool := none
  status : Option EStatus := none
  department : Option String := none
deriving DecidableEq, Repr

def applyPatch (p : Patch) (ev : Event) : Event :=
  { ev with
    user := p.user.getD ev.user
    title := p.title.getD ev.title
    event_type := p.event_type.getD ev.event_type
    start_date := p.start_date.getD ev.start_date
    end_date := p.end_date.getD ev.end_date
    start_time := p.start_time.getD ev.start_time
    end_time := p.end_time.getD ev.end_time
    all_day := p.all_day.getD ev.all_day
    status := p.status.getD ev.status
    department := p.department.getD ev.department }

/-- Modelled from the spec: `updateEvent` of section 4.2. The
`ScheduleEventSerializer` used by the update branch of
`schedule_event_detail` (`schedules/views.py` lines 256-273) is absent
from the source tree, so the update pipeline follows the spec: resolve the
event by id (`NotFoundError` when absent); "if `user`, `startDate`, or
`endDate` change, re-runs the Availability Index check excluding
`eventId` itself; on conflict, fails without persisting any change". -/
def updateEvent (db : DB) (event_id : Nat) (p : Patch) : Except Err DB :=
  match db.events.find? (fun ev => ev.id == event_id) with
  | none => .error .notFound
  | some ev =>
    let ev2 := applyPatch p ev
    let changed : Bool :=
      ev2.user != ev.user || ev2.start_date != ev.start_date || ev2.end_date != ev.end_date
    if changed && check_conflicts db.events ev2.user ev2.start_date ev2.end_date (some event_id) then
      .error .conflict
    else
      .ok ⟨db.events.map (fun e => if e.id == event_id then ev2 else e), db.nextId⟩

/-- The operations of the scheduling core that write `ScheduleEvent`
rows, as issued sequentially by the API layer. -/
inductive Op where
  | create (req : CreateReq)
  | update (event_id : Nat) (p : Patch)
  | applyTemplate (template_id : Nat) (start_date : Nat) (user_ids : List Nat)
  | bulkCreate (user_ids : List Nat) (start_date end_date : Nat)
deriving Repr

def execOp (env : Env) (db : DB) : Op → Except Err DB
  | .create req => (createEvent db req).map (fun r => r.1)
  | .update event_id p => updateEvent db event_id p
  | .applyTemplate template_id start_date user_ids =>
      (process_template_application env db template_id start_date user_ids).map
        (fun out => out.db)
  | .bulkCreate user_ids start_date end_date =>
      (bulk_create_schedule_events env db user_ids start_date end_date).map
        (fun r => r.1)

/-- One request: a failed operation leaves the database unchanged
(validation failures reject before writing; the bulk loops run inside
`transaction.atomic()`, so an exception rolls their writes back). -/
def run1 (env : Env) (db : DB) (op : Op) : DB :=
  match execOp env db op with
  | .ok db2 => db2
  | .error _ => db

/-- A sequential history of requests against an initially empty table. -/
def run (env : Env) (ops : List Op) : DB :=
  ops.foldl (run1 env) ⟨[], 0⟩

/-- `true` iff every operation of the history succeeds when the history
is executed sequentially. -/
def allOk (env : Env) (db : DB) : List Op → Bool
  | [] => true
  | op :: ops =>
    match execOp env db op with
    | .ok db2 => allOk env db2 ops
    | .error _ => false

/-- Bool-level version of the no-overlap invariant of the spec: any two
distinct rows of the same user, both with an active status, have disjoint
date ranges (`A.end_date < B.start_date` or `B.end_date < A.start_date`). -/
def noOverlapActiveB (events : List Event) : Bool :=
  events.all fun a =>
    events.all fun b =>
      !(a.id != b.id) || !(a.user == b.user) || !a.status.isActive || !b.status.isActive ||
        decide (a.end_date < b.start_date) || decide (b.end_date < a.start_date)

/-- Prop-level no-overlap invariant. -/
def NoOverlapActive (events : List Event) : Prop :=
  ∀ a ∈ events, ∀ b ∈ events, a.id ≠ b.id → a.user = b.user →
    a.status.isActive = true → b.status.isActive = true →
    a.end_date < b.start_date ∨ b.end_date < a.start_date

/-- A patch is reactivation-free when it does not set the status field to
an active status (`scheduled`/`confirmed`). The spec only re-runs the
conflict check when `user`/`startDate`/`endDate` change, so a status-only
patch that turns a cancelled or completed event active again bypasses the
check. -/
def Patch.statusOk (p : Patch) : Bool :=
  match p.status with
  | none => true
  | some s => !s.isActive

/-- An operation is reactivation-free when it is not an update whose
patch sets an active status. -/
def Op.noReactivation : Op → Bool
  | .update _ p => p.statusOk
  | _ => true

/-- Well-formedness of the event table: the no-overlap invariant among
active events, plus primary-key discipline (distinct ids, all below the
id counter). -/
structure Wf (db : DB) : Prop where
  no_overlap : NoOverlapActive db.events
  ids_lt : ∀ ev ∈ db.events, ev.id < db.nextId
  ids_nodup : (db.events.map fun e => e.id).Nodup

/-- The patch that re-submits every current field of an event unchanged. -/
def fullPatch (ev : Event) : Patch :=
  { user := some ev.user
    title := some ev.title
    event_type := some ev.event_type
    start_date := some ev.start_date
    end_date := some ev.end_date
    start_time := some ev.start_time
    end_time := some ev.end_time
    all_day := some ev.all_day
    status := some ev.status
    department := some ev.department }

/-- A create request with a reversed date range (5 .. 4). -/
def reqReversed : CreateReq :=
  { user := 1, title := "a", event_type := "shift", start_date := 5, end_date := 4,
    start_time := 0, end_time := 60, all_day := false, shift := none, department := "" }

/-- The same request with the range the right way round (4 .. 5). -/
def reqForward : CreateReq :=
  { user := 1, title := "a", event_type := "shift", start_date := 4, end_date := 5,
    start_time := 0, end_time := 60, all_day := false, shift := none, department := "" }

/-- Concrete event row used by the C9 witness. -/
def evSelf : Event :=
  { id := 0, user := 1, title := "s", event_type := "shift", start_date := 3, end_date := 7,
    start_time := 480, end_time := 960, all_day := false, shift := none,
    status := .scheduled, department := "" }

/-- The directory for the C3 scenario: users A (id 1) and B (id 2),
2024-04-01 encoded as day 0 (it is a Monday). -/
def bulkEnv : Env := ⟨[⟨1, "A", none⟩, ⟨2, "B", none⟩], []⟩

/-- The table for the C3 scenario: B already has an active event on
2024-04-03 (day 2); A has none. -/
def bulkDB : DB :=
  ⟨[{ id := 0, user := 2, title := "b", event_type := "shift", start_date := 2,
      end_date := 2, start_time := 480, end_time := 960, all_day := false,
      shift := none, status := .scheduled, department := "" }], 1⟩

/-- History refuting the unconditional form of the no-overlap invariant:
create an event on days 3..7, cancel it by a status-only update, create
an overlapping event on days 1..5 (allowed, the first is inactive), then
reactivate the first by a status-only update — no conflict check runs
because user and dates did not change. -/
def reqCexB : CreateReq :=
  { user := 1, title := "B", event_type := "shift", start_date := 3, end_date := 7,
    start_time := 480, end_time := 960, all_day := false, shift := none, department := "" }

def reqCexA : CreateReq :=
  { user := 1, title := "A", event_type := "shift", start_date := 1, end_date := 5,
    start_time := 480, end_time := 960, all_day := false, shift := none, department := "" }

def cexEnv : Env := ⟨[], []⟩

def cexOps : List Op :=
  [.create reqCexB, .update 0 { status := some .cancelled },
   .create reqCexA, .update 0 { status := some .scheduled }]

/-- A morning shift 08:00-16:00, used by the template witnesses. -/
def shMorning : ShiftRec := ⟨"Morning", 480, 960⟩

/-- A Monday template day carrying the morning shift. -/
def tdMon : TemplateDay := ⟨0, some shMorning⟩

/-- User A of the template witnesses. -/
def uA : UserRec := ⟨1, "A", none⟩

/-- Directory with user A and one template (id 5) whose only day is
`tdMon`. -/
def tEnv : Env := ⟨[uA], [⟨5, [tdMon]⟩]⟩

/-- An active event of user 1 on day 7 (the Monday after anchor day 2). -/
def evMon : Event :=
  { id := 0, user := 1, title := "m", event_type := "shift", start_date := 7, end_date := 7,
    start_time := 480, end_time := 960, all_day := false, shift := none,
    status := .scheduled, department := "" }

/-- Template-application accumulator over an empty table. -/
def accEmpty : TemplateOut := ⟨⟨[], 0⟩, [], []⟩

/-- Template-application accumulator whose table already holds `evMon`. -/
def accConflict : TemplateOut := ⟨⟨[evMon], 1⟩, [], []⟩

/-- The event the template engine creates for user A from `tdMon` at
anchor day 2 over the empty table. -/
def evMorningA : Event :=
  { id := 0, user := 1, title := "Morning - A", event_type := "shift", start_date := 7,
    end_date := 7, start_time := 480, end_time := 960, all_day := false,
    shift := some shMorning, status := .scheduled, department := "" }

/-- The result of applying template 5 at anchor day 2 to user 1 over the
empty table. -/
def outW : TemplateOut := ⟨⟨[evMorningA], 1⟩, [evMorningA], []⟩

section Lemmas

/-- Unfolding of the conflict query: a hit is an active event of the user
whose range meets `[s, e]`, not excluded. -/
theorem check_conflicts_eq_true (events : List Event) (u s e : Nat) (excl : Option Nat) :
    check_conflicts events u s e excl = true ↔
      ∃ ev ∈ events, ev.user = u ∧ ev.status.isActive = true ∧
        ev.start_date ≤ e ∧ s ≤ ev.end_date ∧ ∀ i, excl = some i → ev.id ≠ i := by
  simp only [check_conflicts, List.any_eq_true, Bool.and_eq_true, beq_iff_eq,
    decide_eq_true_eq]
  constructor
  · rintro ⟨ev, hev, ⟨⟨⟨⟨hu, hst⟩, h1⟩, h2⟩, hx⟩⟩
    refine ⟨ev, hev, hu, hst, h1, h2, ?_⟩
    intro i hi
    subst hi
    simpa using hx
  · rintro ⟨ev, hev, hu, hst, h1, h2, hx⟩
    refine ⟨ev, hev, ⟨⟨⟨⟨hu, hst⟩, h1⟩, h2⟩, ?_⟩⟩
    cases excl with
    | none => simp
    | some i => simpa using hx i rfl

/-- Negation of the conflict query: every active, non-excluded event of
the user lies strictly outside `[s, e]`. -/
theorem check_conflicts_eq_false (events : List Event) (u s e : Nat) (excl : Option Nat) :
    check_conflicts events u s e excl = false ↔
      ∀ ev ∈ events, ev.user = u → ev.status.isActive = true →
        (∀ i, excl = some i → ev.id ≠ i) → (e < ev.start_date ∨ ev.end_date < s) := by
  constructor
  · intro h ev hev hu hst hx
    by_contra hc
    push_neg at hc
    have ht : check_conflicts events u s e excl = true :=
      (check_conflicts_eq_true events u s e excl).mpr ⟨ev, hev, hu, hst, hc.1, hc.2, hx⟩
    rw [h] at ht
    exact Bool.false_ne_true ht
  · intro h
    by_contra hc
    rw [Bool.not_eq_false] at hc
    obtain ⟨ev, hev, hu, hst, h1, h2, hx⟩ := (check_conflicts_eq_true events u s e excl).mp hc
    rcases h ev hev hu hst hx with h3 | h3 <;> omega

/-- Unfolding of the single-day conflict query of template application. -/
theorem check_schedule_conflicts_eq_true (events : List Event) (u d : Nat) :
    check_schedule_conflicts events u d = true ↔
      ∃ ev ∈ events, ev.user = u ∧ ev.status.isActive = true ∧
        ev.start_date ≤ d ∧ d ≤ ev.end_date := by
  simp only [check_schedule_conflicts, List.any_eq_true, Bool.and_eq_true, beq_iff_eq,
    decide_eq_true_eq]
  constructor
  · rintro ⟨ev, hev, ⟨⟨⟨hu, hst⟩, h1⟩, h2⟩⟩
    exact ⟨ev, hev, hu, hst, h1, h2⟩
  · rintro ⟨ev, hev, hu, hst, h1, h2⟩
    exact ⟨ev, hev, ⟨⟨⟨hu, hst⟩, h1⟩, h2⟩⟩

theorem check_schedule_conflicts_eq_false (events : List Event) (u d : Nat) :
    check_schedule_conflicts events u d = false ↔
      ∀ ev ∈ events, ev.user = u → ev.status.isActive = true →
        (d < ev.start_date ∨ ev.end_date < d) := by
  constructor
  · intro h ev hev hu hst
    by_contra hc
    push_neg at hc
    have ht : check_schedule_conflicts events u d = true :=
      (check_schedule_conflicts_eq_true events u d).mpr ⟨ev, hev, hu, hst, hc.1, hc.2⟩
    rw [h] at ht
    exact Bool.false_ne_true ht
  · intro h
    by_contra hc
    rw [Bool.not_eq_false] at hc
    obtain ⟨ev, hev, hu, hst, h1, h2⟩ := (check_schedule_conflicts_eq_true events u d).mp hc
    rcases h ev hev hu hst with h3 | h3 <;> omega

end Lemmas

/-- C2: the conflict query returns true iff some event of the user with
status in {scheduled, confirmed} satisfies `start_date <= endDate` and
`end_date >= startDate`, excluding the event with the given id when one
is given; and the answer is insensitive to the events' times of day, so
date-overlapping events with disjoint times of day still conflict. -/
theorem check_conflicts_correct (events : List Event) (u s e : Nat) (excl : Option Nat) :
    (check_conflicts events u s e excl = true ↔
      ∃ ev ∈ events, ev.user = u ∧ ev.status.isActive = true ∧
        ev.start_date ≤ e ∧ s ≤ ev.end_date ∧ ∀ i, excl = some i → ev.id ≠ i) ∧
    ∀ f g : Event → Nat,
      check_conflicts
        (events.map fun ev => { ev with start_time := f ev, end_time := g ev })
        u s e excl = check_conflicts events u s e excl := by
  refine ⟨check_conflicts_eq_true events u s e excl, ?_⟩
  intro f g
  simp only [check_conflicts, List.any_map]
  rfl

/-- C5: the event date of template application is the anchor plus
`(day_of_week - weekday(anchor)) mod 7` days; it is the unique date in
`[anchor, anchor + 6]` whose weekday equals `day_of_week`, and it is the
anchor itself when the anchor already falls on that weekday. -/
theorem calculate_event_date_correct (template_day : TemplateDay) (start_date : Nat)
    (h : template_day.day_of_week < 7) :
    calculate_event_date template_day start_date =
        start_date +
          (((template_day.day_of_week : Int) - ((start_date % 7 : Nat) : Int)) % 7).toNat ∧
      start_date ≤ calculate_event_date template_day start_date ∧
      calculate_event_date template_day start_date ≤ start_date + 6 ∧
      calculate_event_date template_day start_date % 7 = template_day.day_of_week ∧
      (∀ d2, start_date ≤ d2 → d2 ≤ start_date + 6 → d2 % 7 = template_day.day_of_week →
        d2 = calculate_event_date template_day start_date) ∧
      (start_date % 7 = template_day.day_of_week →
        calculate_event_date template_day start_date = start_date) := by
  refine ⟨rfl, ?_, ?_, ?_, ?_, ?_⟩ <;> simp only [calculate_event_date]
  · omega
  · omega
  · omega
  · intro d2 h1 h2 h3
    omega
  · intro hw
    omega

/-- Witness for C5 at a concrete input: anchor on day 2 of the week
(a Wednesday), template day 4 (Friday) gives day 4. -/
theorem calculate_event_date_correct_witness :
    calculate_event_date ⟨4, none⟩ 2 = 4 :=
  ((calculate_event_date_correct ⟨4, none⟩ 2 (by decide)).2.2.2.2.1 4 (by decide)
    (by decide) (by decide)).symm

/-- C6: `duration_hours` is the fixed value 8 for all-day events
regardless of the stored times; otherwise it is the end-minus-start
difference in hours, the end instant pushed forward 24 hours when the
event ends on its start date at an earlier time of day (midnight
crossing), rounded to two decimals; in particular 22:00-06:00 on one
nominal date gives 8. -/
theorem duration_hours_correct (ev : Event) :
    (ev.all_day = true → duration_hours ev = 8) ∧
    (ev.all_day = false →
      duration_hours ev =
        roundTo2 (((ev.end_date : ℚ) - (ev.start_date : ℚ)) * 24 +
          ((ev.end_time : ℚ) - (ev.start_time : ℚ)) / 60 +
          (if ev.end_date = ev.start_date ∧ ev.end_time < ev.start_time then 24 else 0))) ∧
    (ev.all_day = false → ev.end_date = ev.start_date →
      ev.start_time = 22 * 60 → ev.end_time = 6 * 60 → duration_hours ev = 8) := by
  have hdef : duration_hours ev =
      if ev.all_day then 8
      else if ev.end_date == ev.start_date && decide (ev.end_time < ev.start_time) then
        roundTo2 ((((ev.end_date * 1440 + ev.end_time + 1440 : Nat) : ℚ) -
          ((ev.start_date * 1440 + ev.start_time : Nat) : ℚ)) / 60)
      else
        roundTo2 ((((ev.end_date * 1440 + ev.end_time : Nat) : ℚ) -
          ((ev.start_date * 1440 + ev.start_time : Nat) : ℚ)) / 60) := by
    by_cases h : ev.all_day = true <;>
      by_cases hb : (ev.end_date == ev.start_date && decide (ev.end_time < ev.start_time)) = true <;>
        simp [duration_hours, h, hb]
  refine ⟨?_, ?_, ?_⟩
  · intro h
    rw [hdef, if_pos h]
  · intro h
    rw [hdef, if_neg (by simp [h])]
    by_cases hb : (ev.end_date == ev.start_date && decide (ev.end_time < ev.start_time)) = true
    · obtain ⟨h1, h2⟩ : ev.end_date = ev.start_date ∧ ev.end_time < ev.start_time := by
        simpa using hb
      rw [if_pos hb, if_pos ⟨h1, h2⟩]
      congr 1
      rw [h1]
      push_cast
      ring
    · have hnb : ¬(ev.end_date = ev.start_date ∧ ev.end_time < ev.start_time) := by
        simpa using hb
      rw [if_neg hb, if_neg hnb]
      congr 1
      push_cast
      ring
  · intro h h1 h2 h3
    have hc : (ev.end_date == ev.start_date && decide (ev.end_time < ev.start_time)) = true := by
      simp [h1, h2, h3]
    rw [hdef, if_neg (by simp [h]), if_pos hc, h1, h2, h3]
    have harg : (((ev.start_date * 1440 + 6 * 60 + 1440 : ℕ) : ℚ) -
        ((ev.start_date * 1440 + 22 * 60 : ℕ) : ℚ)) / 60 = ((800 : ℤ) : ℚ) / 100 := by
      push_cast
      ring
    rw [harg]
    unfold roundTo2
    rw [show (((800 : ℤ) : ℚ) / 100 * 100) = ((800 : ℤ) : ℚ) by ring, round_intCast]
    norm_num

/-- Witness for C6 at a concrete event: a 22:00-06:00 night shift on one
date has duration 8, and the all-day flag forces 8. -/
theorem duration_hours_correct_witness :
    duration_hours
      { id := 0, user := 1, title := "n", event_type := "shift", start_date := 5,
        end_date := 5, start_time := 22 * 60, end_time := 6 * 60, all_day := false,
        shift := none, status := .scheduled, department := "" } = 8 ∧
    duration_hours
      { id := 0, user := 1, title := "n", event_type := "shift", start_date := 5,
        end_date := 5, start_time := 22 * 60, end_time := 6 * 60, all_day := true,
        shift := none, status := .scheduled, department := "" } = 8 :=
  ⟨(duration_hours_correct _).2.2 rfl rfl rfl rfl, (duration_hours_correct _).1 rfl⟩

/-- C7: a create request with `end_date < start_date` fails with the
invalid-range error and persists nothing; with `start_date <= end_date`
the range validation passes and the outcome is decided by the conflict
query. -/
theorem createEvent_range_check (env : Env) (db : DB) (req : CreateReq) :
    (req.end_date < req.start_date →
      createEvent db req = .error .invalidRange ∧ run1 env db (.create req) = db) ∧
    (req.start_date ≤ req.end_date →
      createEvent db req =
        if check_conflicts db.events req.user req.start_date req.end_date none then
          .error .conflict
        else
          .ok (⟨db.events ++ [req.toEvent db.nextId], db.nextId + 1⟩,
            req.toEvent db.nextId)) := by
  constructor
  · intro h
    have hc : ScheduleEvent_clean req.start_date req.end_date = .error .invalidRange := by
      simp [ScheduleEvent_clean, h]
    exact ⟨by simp [createEvent, hc], by simp [run1, execOp, createEvent, hc, Except.map]⟩
  · intro h
    have hc : ScheduleEvent_clean req.start_date req.end_date = .ok () := by
      simp only [ScheduleEvent_clean, if_neg (Nat.not_lt.mpr h)]
    by_cases hk : check_conflicts db.events req.user req.start_date req.end_date none
    · simp [createEvent, hc, hk]
    · simp [createEvent, hc, hk]

/-- Witness for C7 at concrete inputs: a reversed range is rejected with
the table untouched; a proper range reaches the conflict query. -/
theorem createEvent_range_check_witness :
    (createEvent ⟨[], 0⟩ reqReversed = .error .invalidRange ∧
      run1 ⟨[], []⟩ ⟨[], 0⟩ (.create reqReversed) = ⟨[], 0⟩) ∧
    createEvent ⟨[], 0⟩ reqForward =
      (if check_conflicts [] 1 4 5 none then .error .conflict
       else .ok (⟨[reqForward.toEvent 0], 1⟩, reqForward.toEvent 0)) :=
  ⟨(createEvent_range_check ⟨[], []⟩ ⟨[], 0⟩ reqReversed).1 (by decide),
    (createEvent_range_check ⟨[], []⟩ ⟨[], 0⟩ reqForward).2 (by decide)⟩

/-- C9: updating an event with a patch identical to its current state
succeeds — in particular it never fails with the conflict error — and,
when ids are unique, leaves the table unchanged. -/
theorem updateEvent_self_patch (db : DB) (ev : Event)
    (h : db.events.find? (fun e => e.id == ev.id) = some ev) :
    updateEvent db ev.id (fullPatch ev) =
        .ok ⟨db.events.map (fun e => if e.id == ev.id then ev else e), db.nextId⟩ ∧
      ((db.events.map fun e => e.id).Nodup →
        updateEvent db ev.id (fullPatch ev) = .ok ⟨db.events, db.nextId⟩) := by
  have happ : applyPatch (fullPatch ev) ev = ev := rfl
  have hmain : updateEvent db ev.id (fullPatch ev) =
      .ok ⟨db.events.map (fun e => if e.id == ev.id then ev else e), db.nextId⟩ := by
    simp [updateEvent, h, happ]
  refine ⟨hmain, fun hnd => ?_⟩
  rw [hmain]
  have hmem : ev ∈ db.events := List.mem_of_find?_eq_some h
  have hpt : ∀ e ∈ db.events, (if e.id == ev.id then ev else e) = e := by
    intro e he
    by_cases hid : e.id = ev.id
    · have he2 : e = ev := List.inj_on_of_nodup_map hnd he hmem hid
      simp [hid, he2]
    · simp [hid]
  have hmap : db.events.map (fun e => if e.id == ev.id then ev else e) = db.events := by
    rw [List.map_congr_left hpt]
    exact List.map_id db.events
  rw [hmap]

/-- Witness for C9 at a concrete table: re-submitting the event's own
state succeeds and leaves the table unchanged. -/
theorem updateEvent_self_patch_witness :
    updateEvent ⟨[evSelf], 1⟩ evSelf.id (fullPatch evSelf) = .ok ⟨[evSelf], 1⟩ :=
  (updateEvent_self_patch ⟨[evSelf], 1⟩ evSelf (by decide)).2 (by decide)

/-- C3: on the scenario of the claim — users [A, B] over
2024-04-01..2024-04-05 (days 0..4), only B conflicting — the source does
not create an event for A and skip B: `bulk_create_schedule_events`
passes the model class `Shift` (not a shift instance) to
`ScheduleEvent.objects.create`, so the first conflict-free user makes the
create raise `ValueError`, the transaction rolls back, and no event is
persisted — even though B's conflict and A's availability are exactly as
the claim assumes. -/
theorem bulk_create_scenario_crashes :
    check_conflicts bulkDB.events 2 0 4 none = true ∧
    check_conflicts bulkDB.events 1 0 4 none = false ∧
    bulk_create_schedule_events bulkEnv bulkDB [1, 2] 0 4 = .error .valueError ∧
    run1 bulkEnv bulkDB (.bulkCreate [1, 2] 0 4) = bulkDB :=
  ⟨rfl, rfl, rfl, rfl⟩

theorem wf_empty : Wf ⟨[], 0⟩ := by
  refine ⟨?_, ?_, ?_⟩ <;> simp [NoOverlapActive]

/-- Appending an event that the conflict check cleared preserves the
no-overlap invariant. -/
theorem noOverlapActive_append (events : List Event) (ev : Event)
    (h : NoOverlapActive events)
    (hnew : ∀ b ∈ events, b.user = ev.user → b.status.isActive = true →
      ev.end_date < b.start_date ∨ b.end_date < ev.start_date) :
    NoOverlapActive (events ++ [ev]) := by
  intro a ha b hb hid huser hact1 hact2
  rcases List.mem_append.mp ha with ha2 | ha2
  · rcases List.mem_append.mp hb with hb2 | hb2
    · exact h a ha2 b hb2 hid huser hact1 hact2
    · have hbe : b = ev := List.mem_singleton.mp hb2
      rw [hbe] at huser ⊢
      rcases hnew a ha2 huser hact1 with h1 | h1
      · exact Or.inr h1
      · exact Or.inl h1
  · have hae : a = ev := List.mem_singleton.mp ha2
    rw [hae] at huser hid ⊢
    rcases List.mem_append.mp hb with hb2 | hb2
    · rcases hnew b hb2 huser.symm hact2 with h1 | h1
      · exact Or.inl h1
      · exact Or.inr h1
    · have hbe : b = ev := List.mem_singleton.mp hb2
      rw [hbe] at hid
      exact absurd rfl hid

/-- Appending a fresh-id row preserves well-formedness when the new row
clears the overlap condition against every active row of its user. -/
theorem wf_append (db : DB) (ev : Event) (hwf : Wf db) (hid : ev.id = db.nextId)
    (hnew : ∀ b ∈ db.events, b.user = ev.user → b.status.isActive = true →
      ev.end_date < b.start_date ∨ b.end_date < ev.start_date) :
    Wf ⟨db.events ++ [ev], db.nextId + 1⟩ := by
  refine ⟨noOverlapActive_append db.events ev hwf.no_overlap hnew, ?_, ?_⟩
  · intro e he
    rcases List.mem_append.mp he with he2 | he2
    · exact Nat.lt_succ_of_lt (hwf.ids_lt e he2)
    · rw [List.mem_singleton.mp he2, hid]
      exact Nat.lt_succ_self _
  · rw [List.map_append]
    simp only [List.map_cons, List.map_nil]
    rw [List.nodup_append]
    refine ⟨hwf.ids_nodup, List.nodup_singleton _, ?_⟩
    intro x hx
    simp only [List.mem_singleton]
    intro heq
    obtain ⟨e, he, hei⟩ := List.mem_map.mp hx
    have := hwf.ids_lt e he
    omega

/-- Transfer of the no-overlap invariant along a pointwise table rewrite
that preserves ids. -/
theorem noOverlapActive_map (events : List Event) (f : Event → Event)
    (hid : ∀ e ∈ events, (f e).id = e.id)
    (hok : ∀ a ∈ events, ∀ b ∈ events, a.id ≠ b.id →
      (f a).user = (f b).user → (f a).status.isActive = true →
      (f b).status.isActive = true →
      (f a).end_date < (f b).start_date ∨ (f b).end_date < (f a).start_date) :
    NoOverlapActive (events.map f) := by
  intro a ha b hb hne huser hact1 hact2
  obtain ⟨a0, ha0, rfl⟩ := List.mem_map.mp ha
  obtain ⟨b0, hb0, rfl⟩ := List.mem_map.mp hb
  refine hok a0 ha0 b0 hb0 ?_ huser hact1 hact2
  intro heq
  exact hne (by rw [hid a0 ha0, hid b0 hb0, heq])

/-- A successful spec-modelled create preserves well-formedness: the
conflict check cleared the new row against every active row of its user. -/
theorem wf_createEvent (db : DB) (req : CreateReq) (db2 : DB) (ev2 : Event)
    (hwf : Wf db) (h : createEvent db req = .ok (db2, ev2)) : Wf db2 := by
  unfold createEvent at h
  cases hcl : ScheduleEvent_clean req.start_date req.end_date with
  | error e =>
    rw [hcl] at h
    simp at h
  | ok u =>
    rw [hcl] at h
    by_cases hk : check_conflicts db.events req.user req.start_date req.end_date none = true
    · rw [if_pos hk] at h
      simp at h
    · rw [if_neg hk] at h
      injection h with hpair
      injection hpair with hdb hev
      subst hdb
      apply wf_append db (req.toEvent db.nextId) hwf rfl
      intro b hb hu hact
      have hkf := (check_conflicts_eq_false db.events req.user req.start_date
        req.end_date none).mp (by simpa using hk)
      rcases hkf b hb hu hact (by intro i hi; cases hi) with h1 | h1
      · exact Or.inl h1
      · exact Or.inr h1

/-- Unfolding of the spec-modelled update (zeta-reduced form of the
definition). -/
theorem updateEvent_eq (db : DB) (event_id : Nat) (p : Patch) :
    updateEvent db event_id p =
      match db.events.find? (fun e => e.id == event_id) with
      | none => .error .notFound
      | some ev =>
        if ((applyPatch p ev).user != ev.user ||
            (applyPatch p ev).start_date != ev.start_date ||
            (applyPatch p ev).end_date != ev.end_date) &&
            check_conflicts db.events (applyPatch p ev).user (applyPatch p ev).start_date
              (applyPatch p ev).end_date (some event_id) then
          .error .conflict
        else
          .ok ⟨db.events.map (fun e => if e.id == event_id then applyPatch p ev else e),
            db.nextId⟩ := rfl

/-- A successful reactivation-free update preserves well-formedness. -/
theorem wf_updateEvent (db : DB) (event_id : Nat) (p : Patch) (db2 : DB)
    (hwf : Wf db) (hp : p.statusOk = true) (h : updateEvent db event_id p = .ok db2) :
    Wf db2 := by
  rw [updateEvent_eq] at h
  cases hfind : db.events.find? (fun e => e.id == event_id) with
  | none =>
    rw [hfind] at h
    simp at h
  | some ev =>
    rw [hfind] at h
    simp only at h
    have hevid : ev.id = event_id := by simpa using List.find?_some hfind
    have hmem : ev ∈ db.events := List.mem_of_find?_eq_some hfind
    have hinj : ∀ e ∈ db.events, e.id = event_id → e = ev := by
      intro e he hei
      exact List.inj_on_of_nodup_map hwf.ids_nodup he hmem (by rw [hei, hevid])
    by_cases hcond : (((applyPatch p ev).user != ev.user ||
        (applyPatch p ev).start_date != ev.start_date ||
        (applyPatch p ev).end_date != ev.end_date) &&
        check_conflicts db.events (applyPatch p ev).user (applyPatch p ev).start_date
          (applyPatch p ev).end_date (some event_id)) = true
    · rw [if_pos hcond] at h
      simp at h
    · rw [if_neg hcond] at h
      injection h with hdb
      subst hdb
      have hidpt : ∀ e ∈ db.events,
          (if e.id == event_id then applyPatch p ev else e).id = e.id := by
        intro e he
        by_cases hei : e.id = event_id
        · have hif : (if (e.id == event_id) = true then applyPatch p ev else e)
              = applyPatch p ev := by simp [hei]
          rw [hif]
          show ev.id = e.id
          rw [hevid, hei]
        · simp [hei]
      have huntouched : ∀ e ∈ db.events, e.id ≠ event_id →
          (if e.id == event_id then applyPatch p ev else e) = e := by
        intro e he hei
        simp [hei]
      have htouched : ∀ e ∈ db.events, e.id = event_id →
          (if e.id == event_id then applyPatch p ev else e) = applyPatch p ev := by
        intro e he hei
        simp [hei]
      refine ⟨?_, ?_, ?_⟩
      · -- overlap invariant
        apply noOverlapActive_map db.events _ hidpt
        intro a ha b hb hne huser hact1 hact2
        by_cases hch : ((applyPatch p ev).user != ev.user ||
            (applyPatch p ev).start_date != ev.start_date ||
            (applyPatch p ev).end_date != ev.end_date) = true
        · -- user or dates changed: the conflict check must have run and cleared
          have hk : check_conflicts db.events (applyPatch p ev).user
              (applyPatch p ev).start_date (applyPatch p ev).end_date
              (some event_id) = false := by
            revert hcond hch
            cases ((applyPatch p ev).user != ev.user ||
              (applyPatch p ev).start_date != ev.start_date ||
              (applyPatch p ev).end_date != ev.end_date) <;>
              cases check_conflicts db.events (applyPatch p ev).user
                (applyPatch p ev).start_date (applyPatch p ev).end_date (some event_id) <;>
                simp
          have hkf := (check_conflicts_eq_false _ _ _ _ _).mp hk
          by_cases hae : a.id = event_id
          · by_cases hbe : b.id = event_id
            · exact absurd (hae.trans hbe.symm) hne
            · rw [htouched a ha hae] at huser ⊢
              rw [huntouched b hb hbe] at huser hact2 ⊢
              rcases hkf b hb huser.symm hact2
                  (by intro i hi; injection hi with hi2; rw [← hi2]; exact hbe) with h1 | h1
              · exact Or.inl h1
              · exact Or.inr h1
          · by_cases hbe : b.id = event_id
            · rw [htouched b hb hbe] at huser ⊢
              rw [huntouched a ha hae] at huser hact1 ⊢
              rcases hkf a ha huser hact1
                  (by intro i hi; injection hi with hi2; rw [← hi2]; exact hae) with h1 | h1
              · exact Or.inr h1
              · exact Or.inl h1
            · rw [huntouched a ha hae] at huser hact1 ⊢
              rw [huntouched b hb hbe] at huser hact2 ⊢
              exact hwf.no_overlap a ha b hb hne huser hact1 hact2
        · -- user and dates unchanged: the patch is reactivation-free
          have hch2 : (applyPatch p ev).user = ev.user ∧
              (applyPatch p ev).start_date = ev.start_date ∧
              (applyPatch p ev).end_date = ev.end_date := by
            rw [Bool.not_eq_true, Bool.or_eq_false_iff, Bool.or_eq_false_iff] at hch
            exact ⟨bne_eq_false_iff_eq.mp hch.1.1, bne_eq_false_iff_eq.mp hch.1.2,
              bne_eq_false_iff_eq.mp hch.2⟩
          cases hps : p.status with
          | none =>
            have hst : (applyPatch p ev).status = ev.status := by
              simp [applyPatch, hps]
            have hpt4 : ∀ e ∈ db.events,
                ((if e.id == event_id then applyPatch p ev else e).user = e.user ∧
                  (if e.id == event_id then applyPatch p ev else e).start_date = e.start_date) ∧
                (if e.id == event_id then applyPatch p ev else e).end_date = e.end_date ∧
                (if e.id == event_id then applyPatch p ev else e).status = e.status := by
              intro e he
              by_cases hei : e.id = event_id
              · rw [htouched e he hei, hinj e he hei]
                exact ⟨⟨hch2.1, hch2.2.1⟩, hch2.2.2, hst⟩
              · rw [huntouched e he hei]
                exact ⟨⟨rfl, rfl⟩, rfl, rfl⟩
            obtain ⟨⟨hua, hsa⟩, hea, hsta⟩ := hpt4 a ha
            obtain ⟨⟨hub, hsb⟩, heb, hstb⟩ := hpt4 b hb
            rw [hua, hub] at huser
            rw [hsta] at hact1
            rw [hstb] at hact2
            rw [hea, heb, hsa, hsb]
            exact hwf.no_overlap a ha b hb hne huser hact1 hact2
          | some s =>
            have hsact : s.isActive = false := by
              simpa [Patch.statusOk, hps] using hp
            have hst : (applyPatch p ev).status = s := by
              simp [applyPatch, hps]
            by_cases hae : a.id = event_id
            · rw [htouched a ha hae, hst, hsact] at hact1
              simp at hact1
            · by_cases hbe : b.id = event_id
              · rw [htouched b hb hbe, hst, hsact] at hact2
                simp at hact2
              · rw [huntouched a ha hae] at huser hact1 ⊢
                rw [huntouched b hb hbe] at huser hact2 ⊢
                exact hwf.no_overlap a ha b hb hne huser hact1 hact2
      · -- id bound
        intro e he
        obtain ⟨e0, he0, rfl⟩ := List.mem_map.mp he
        rw [hidpt e0 he0]
        exact hwf.ids_lt e0 he0
      · -- id distinctness
        rw [List.map_map]
        have hidpt2 : ∀ e ∈ db.events,
            ((fun e => e.id) ∘ fun e => if e.id == event_id then applyPatch p ev else e) e
              = e.id := hidpt
        rw [List.map_congr_left hidpt2]
        exact hwf.ids_nodup

/-- Unfolding of the template-day loop body (zeta-reduced form of the
definition). -/
theorem template_day_step_eq (user : UserRec) (start_date : Nat) (acc : TemplateOut)
    (template_day : TemplateDay) :
    template_day_step user start_date acc template_day =
      match template_day.shift with
      | none => acc
      | some sh =>
        if check_schedule_conflicts acc.db.events user.id
            (calculate_event_date template_day start_date) then
          { acc with skipped := acc.skipped ++ [⟨user.id, user.full_name,
              calculate_event_date template_day start_date, "Schedule conflict"⟩] }
        else
          { db := ⟨acc.db.events ++ [template_created_event sh user
                (calculate_event_date template_day start_date) acc.db.nextId],
              acc.db.nextId + 1⟩
            created := acc.created ++ [template_created_event sh user
              (calculate_event_date template_day start_date) acc.db.nextId]
            skipped := acc.skipped } := rfl

/-- One template-day loop iteration preserves well-formedness. -/
theorem wf_template_day_step (user : UserRec) (start_date : Nat) (acc : TemplateOut)
    (template_day : TemplateDay) (hwf : Wf acc.db) :
    Wf (template_day_step user start_date acc template_day).db := by
  rw [template_day_step_eq]
  cases htd : template_day.shift with
  | none => exact hwf
  | some sh =>
    dsimp only
    by_cases hk : check_schedule_conflicts acc.db.events user.id
        (calculate_event_date template_day start_date) = true
    · rw [if_pos hk]
      exact hwf
    · rw [if_neg hk]
      refine wf_append acc.db _ hwf rfl ?_
      intro b hb hu hact
      have hkf := (check_schedule_conflicts_eq_false _ _ _).mp (by simpa using hk)
      rcases hkf b hb hu hact with h1 | h1
      · exact Or.inl h1
      · exact Or.inr h1

theorem wf_days_foldl (user : UserRec) (start_date : Nat) :
    ∀ (days : List TemplateDay) (acc : TemplateOut), Wf acc.db →
      Wf (days.foldl (template_day_step user start_date) acc).db := by
  intro days
  induction days with
  | nil =>
    intro acc h
    simpa using h
  | cons d rest ih =>
    intro acc h
    rw [List.foldl_cons]
    exact ih _ (wf_template_day_step user start_date acc d h)

theorem wf_process_user_template_days (template : TemplateRec) (user : UserRec)
    (start_date : Nat) (acc : TemplateOut) (hwf : Wf acc.db) :
    Wf (process_user_template_days template user start_date acc).db :=
  wf_days_foldl user start_date template.days acc hwf

theorem wf_apply_template_loop (env : Env) (template : TemplateRec) (start_date : Nat) :
    ∀ (uids : List Nat) (acc out : TemplateOut), Wf acc.db →
      apply_template_loop env template start_date uids acc = .ok out → Wf out.db := by
  intro uids
  induction uids with
  | nil =>
    intro acc out h hrun
    simp only [apply_template_loop] at hrun
    injection hrun with h2
    rw [← h2]
    exact h
  | cons uid rest ih =>
    intro acc out h hrun
    simp only [apply_template_loop] at hrun
    cases hfu : findUser env uid with
    | none =>
      rw [hfu] at hrun
      simp at hrun
    | some user =>
      rw [hfu] at hrun
      exact ih _ out (wf_process_user_template_days template user start_date acc h) hrun

theorem wf_process_template_application (env : Env) (db : DB)
    (template_id start_date : Nat) (user_ids : List Nat) (out : TemplateOut)
    (hwf : Wf db)
    (h : process_template_application env db template_id start_date user_ids = .ok out) :
    Wf out.db := by
  unfold process_template_application at h
  cases hft : findTemplate env template_id with
  | none =>
    rw [hft] at h
    simp at h
  | some template =>
    rw [hft] at h
    exact wf_apply_template_loop env template start_date user_ids ⟨db, [], []⟩ out hwf h

/-- The bulk-create loop never changes the table: every user is either
skipped or makes the broken create raise. -/
theorem bulk_create_loop_db (env : Env) (s e : Nat) :
    ∀ (uids : List Nat) (acc r : DB × List BSkip),
      bulk_create_loop env s e uids acc = .ok r → r.1 = acc.1 := by
  intro uids
  induction uids with
  | nil =>
    intro acc r h
    simp only [bulk_create_loop] at h
    injection h with h2
    rw [← h2]
  | cons uid rest ih =>
    intro acc r h
    simp only [bulk_create_loop] at h
    cases hfu : findUser env uid with
    | none =>
      rw [hfu] at h
      simp at h
    | some user =>
      rw [hfu] at h
      simp only at h
      by_cases hk : check_conflicts acc.1.events user.id s e none = true
      · rw [if_pos hk] at h
        exact ih (acc.1, acc.2 ++ [⟨user.id, user.full_name, "Schedule conflict"⟩]) r h
      · rw [if_neg hk] at h
        simp at h

/-- One reactivation-free request preserves well-formedness. -/
theorem wf_run1 (env : Env) (db : DB) (op : Op) (hwf : Wf db)
    (hop : op.noReactivation = true) : Wf (run1 env db op) := by
  unfold run1
  cases hex : execOp env db op with
  | error e => exact hwf
  | ok db2 =>
    cases op with
    | create req =>
      simp only [execOp] at hex
      cases hc : createEvent db req with
      | error e2 =>
        rw [hc] at hex
        simp [Except.map] at hex
      | ok pr =>
        rw [hc] at hex
        simp only [Except.map] at hex
        injection hex with h2
        rw [← h2]
        exact wf_createEvent db req pr.1 pr.2 hwf (by rw [hc])
    | update eid p =>
      simp only [execOp] at hex
      exact wf_updateEvent db eid p db2 hwf (by simpa [Op.noReactivation] using hop) hex
    | applyTemplate tid sd uids =>
      simp only [execOp] at hex
      cases hc : process_template_application env db tid sd uids with
      | error e2 =>
        rw [hc] at hex
        simp [Except.map] at hex
      | ok out =>
        rw [hc] at hex
        simp only [Except.map] at hex
        injection hex with h2
        rw [← h2]
        exact wf_process_template_application env db tid sd uids out hwf hc
    | bulkCreate uids s e =>
      simp only [execOp] at hex
      cases hc : bulk_create_schedule_events env db uids s e with
      | error e2 =>
        rw [hc] at hex
        simp [Except.map] at hex
      | ok r =>
        rw [hc] at hex
        simp only [Except.map] at hex
        injection hex with h2
        rw [← h2]
        have hdb : r.1 = db := bulk_create_loop_db env s e uids (db, []) r hc
        rw [hdb]
        exact hwf

/-- A reactivation-free history preserves well-formedness from the empty
table. -/
theorem wf_run (env : Env) (ops : List Op)
    (h : ∀ op ∈ ops, op.noReactivation = true) : Wf (run env ops) := by
  unfold run
  suffices hgen : ∀ (l : List Op) (db : DB), Wf db →
      (∀ op ∈ l, op.noReactivation = true) → Wf (l.foldl (run1 env) db) by
    exact hgen ops ⟨[], 0⟩ wf_empty h
  intro l
  induction l with
  | nil =>
    intro db hdb _
    simpa using hdb
  | cons op rest ih =>
    intro db hdb hl
    rw [List.foldl_cons]
    exact ih (run1 env db op) (wf_run1 env db op hdb (hl op (by simp)))
      (fun o ho => hl o (by simp [ho]))

/-- Counterexample to C1 as stated: the four-request history of `cexOps`
(create 3..7, cancel it, create 1..5, reactivate the first by a
status-only update) succeeds at every step, yet leaves two active events
of user 1 with overlapping ranges — the spec's update only re-checks
conflicts when user or dates change, so the reactivating update bypasses
the check. -/
theorem no_overlap_invariant_counterexample :
    allOk cexEnv ⟨[], 0⟩ cexOps = true ∧
      ¬ NoOverlapActive (run cexEnv cexOps).events := by
  refine ⟨rfl, ?_⟩
  unfold NoOverlapActive
  decide

/-- C1 (amended): for every history of create / update / template
application / bulk creation executed sequentially from an empty table in
which no update patch sets the status field to an active status, any two
distinct rows of the same user that end up active have non-overlapping
date ranges (`A.end_date < B.start_date` or `B.end_date < A.start_date`). -/
theorem no_overlap_invariant_amended (env : Env) (ops : List Op)
    (h : ∀ op ∈ ops, op.noReactivation = true) :
    NoOverlapActive (run env ops).events :=
  (wf_run env ops h).no_overlap

/-- Witness for the amended C1 at a concrete history: two creates, the
second rejected by the conflict check. -/
theorem no_overlap_invariant_amended_witness :
    NoOverlapActive (run cexEnv [.create reqCexB, .create reqCexA]).events :=
  no_overlap_invariant_amended cexEnv [.create reqCexB, .create reqCexA] (by decide)

/-- C4: per (templateDay, user) pair with a shift assigned, a conflict at
the computed event date appends exactly the skip entry
`{user, eventDate, "Schedule conflict"}` and creates nothing; otherwise
exactly one event is created whose fields are title
`shift.name - user.fullName`, event type `shift`, a single-day range at
the event date, the shift's times, status `scheduled`, and the user's
department when present. -/
theorem template_pair_semantics (user : UserRec) (start_date : Nat) (acc : TemplateOut)
    (template_day : TemplateDay) (sh : ShiftRec) (hsh : template_day.shift = some sh) :
    (check_schedule_conflicts acc.db.events user.id
        (calculate_event_date template_day start_date) = true →
      template_day_step user start_date acc template_day =
        { acc with skipped := acc.skipped ++ [⟨user.id, user.full_name,
            calculate_event_date template_day start_date, "Schedule conflict"⟩] }) ∧
    (check_schedule_conflicts acc.db.events user.id
        (calculate_event_date template_day start_date) = false →
      template_day_step user start_date acc template_day =
        { db := ⟨acc.db.events ++ [template_created_event sh user
              (calculate_event_date template_day start_date) acc.db.nextId],
            acc.db.nextId + 1⟩
          created := acc.created ++ [template_created_event sh user
            (calculate_event_date template_day start_date) acc.db.nextId]
          skipped := acc.skipped }) ∧
    (∀ d eid,
      (template_created_event sh user d eid).title = sh.name ++ " - " ++ user.full_name ∧
      (template_created_event sh user d eid).event_type = "shift" ∧
      (template_created_event sh user d eid).start_date = d ∧
      (template_created_event sh user d eid).end_date = d ∧
      (template_created_event sh user d eid).start_time = sh.start_time ∧
      (template_created_event sh user d eid).end_time = sh.end_time ∧
      (template_created_event sh user d eid).status = .scheduled ∧
      (template_created_event sh user d eid).department = user.department.getD "") := by
  refine ⟨?_, ?_, ?_⟩
  · intro hk
    rw [template_day_step_eq, hsh]
    dsimp only
    rw [if_pos hk]
  · intro hk
    rw [template_day_step_eq, hsh]
    dsimp only
    rw [if_neg (by simp [hk])]
  · intro d eid
    exact ⟨rfl, rfl, rfl, rfl, rfl, rfl, rfl, rfl⟩

/-- Witness for C4 at concrete pairs: a conflicting pair only records the
skip entry; a free pair creates exactly the described event. -/
theorem template_pair_semantics_witness :
    template_day_step uA 2 accConflict tdMon =
        { accConflict with skipped := [⟨1, "A", 7, "Schedule conflict"⟩] } ∧
      template_day_step uA 2 accEmpty tdMon = outW :=
  ⟨(template_pair_semantics uA 2 accConflict tdMon shMorning rfl).1 rfl,
    (template_pair_semantics uA 2 accEmpty tdMon shMorning rfl).2.1 rfl⟩

/-- The user loop of template application succeeds when every referenced
user resolves. -/
theorem apply_template_loop_ok (env : Env) (template : TemplateRec) (start_date : Nat) :
    ∀ (uids : List Nat) (acc : TemplateOut),
      (∀ uid ∈ uids, ∃ u, findUser env uid = some u) →
      ∃ out, apply_template_loop env template start_date uids acc = .ok out := by
  intro uids
  induction uids with
  | nil =>
    intro acc _
    exact ⟨acc, rfl⟩
  | cons uid rest ih =>
    intro acc hall
    obtain ⟨u, hu⟩ := hall uid (by simp)
    obtain ⟨out, hout⟩ := ih (process_user_template_days template u start_date acc)
      (fun x hx => hall x (by simp [hx]))
    refine ⟨out, ?_⟩
    simp only [apply_template_loop, hu]
    exact hout

/-- The user loop of template application fails with the not-found error
as soon as some referenced user does not resolve. -/
theorem apply_template_loop_error (env : Env) (template : TemplateRec) (start_date : Nat) :
    ∀ (uids : List Nat) (acc : TemplateOut),
      (∃ uid ∈ uids, findUser env uid = none) →
      apply_template_loop env template start_date uids acc = .error .notFound := by
  intro uids
  induction uids with
  | nil =>
    intro acc h
    obtain ⟨uid, hmem, _⟩ := h
    cases hmem
  | cons uid rest ih =>
    intro acc h
    cases hfu : findUser env uid with
    | none => simp [apply_template_loop, hfu]
    | some u =>
      obtain ⟨uid2, hmem, hnone⟩ := h
      rcases List.mem_cons.mp hmem with hh | hh
      · rw [hh] at hnone
        rw [hnone] at hfu
        cases hfu
      · simp only [apply_template_loop, hfu]
        exact ih _ ⟨uid2, hh, hnone⟩

/-- The bulk loop fails as soon as some referenced user does not
resolve (either at that user, or earlier at a conflict-free user whose
create raises). -/
theorem bulk_create_loop_error (env : Env) (s e : Nat) :
    ∀ (uids : List Nat) (acc : DB × List BSkip),
      (∃ uid ∈ uids, findUser env uid = none) →
      ∃ err, bulk_create_loop env s e uids acc = .error err := by
  intro uids
  induction uids with
  | nil =>
    intro acc h
    obtain ⟨uid, hmem, _⟩ := h
    cases hmem
  | cons uid rest ih =>
    intro acc h
    cases hfu : findUser env uid with
    | none => exact ⟨.notFound, by simp [bulk_create_loop, hfu]⟩
    | some u =>
      obtain ⟨uid2, hmem, hnone⟩ := h
      rcases List.mem_cons.mp hmem with hh | hh
      · rw [hh] at hnone
        rw [hnone] at hfu
        cases hfu
      · by_cases hk : check_conflicts acc.1.events u.id s e none = true
        · obtain ⟨err, herr⟩ := ih (acc.1, acc.2 ++ [⟨u.id, u.full_name, "Schedule conflict"⟩])
            ⟨uid2, hh, hnone⟩
          refine ⟨err, ?_⟩
          simp only [bulk_create_loop, hfu]
          rw [if_pos hk]
          exact herr
        · refine ⟨.valueError, ?_⟩
          simp only [bulk_create_loop, hfu]
          rw [if_neg hk]

/-- The bulk loop completes (creating nothing) when every referenced user
resolves and conflicts. -/
theorem bulk_create_loop_all_conflict (env : Env) (s e : Nat) :
    ∀ (uids : List Nat) (acc : DB × List BSkip),
      (∀ uid ∈ uids, ∃ u, findUser env uid = some u ∧
        check_conflicts acc.1.events u.id s e none = true) →
      ∃ skips, bulk_create_loop env s e uids acc = .ok (acc.1, skips) := by
  intro uids
  induction uids with
  | nil =>
    intro acc _
    exact ⟨acc.2, rfl⟩
  | cons uid rest ih =>
    intro acc hall
    obtain ⟨u, hu, hk⟩ := hall uid (by simp)
    obtain ⟨skips, hskips⟩ := ih (acc.1, acc.2 ++ [⟨u.id, u.full_name, "Schedule conflict"⟩])
      (fun x hx => hall x (by simp [hx]))
    refine ⟨skips, ?_⟩
    simp only [bulk_create_loop, hu]
    rw [if_pos hk]
    exact hskips

/-- C8: for template application, the request fails exactly when the
template id or some user id does not resolve, and a failed request
persists nothing; per-pair conflicts never abort it. For bulk creation,
an unresolved user id is fatal, a failed request persists nothing, and
conflicts are recorded as skips with the batch continuing (when every
user conflicts the request completes with the table unchanged). -/
theorem batch_error_semantics (env : Env) (db : DB) (template_id start_date : Nat)
    (user_ids : List Nat) (s e : Nat) :
    ((∃ err, process_template_application env db template_id start_date user_ids
        = .error err) ↔
      findTemplate env template_id = none ∨ ∃ uid ∈ user_ids, findUser env uid = none) ∧
    (∀ err, process_template_application env db template_id start_date user_ids
        = .error err →
      run1 env db (.applyTemplate template_id start_date user_ids) = db) ∧
    ((∃ uid ∈ user_ids, findUser env uid = none) →
      ∃ err, bulk_create_schedule_events env db user_ids s e = .error err) ∧
    (∀ err, bulk_create_schedule_events env db user_ids s e = .error err →
      run1 env db (.bulkCreate user_ids s e) = db) ∧
    ((∀ uid ∈ user_ids, ∃ u, findUser env uid = some u ∧
        check_conflicts db.events u.id s e none = true) →
      ∃ skips, bulk_create_schedule_events env db user_ids s e = .ok (db, skips)) := by
  refine ⟨?_, ?_, ?_, ?_, ?_⟩
  · constructor
    · intro hbad
      by_contra hgood
      push_neg at hgood
      obtain ⟨htmpl, husers⟩ := hgood
      cases hft : findTemplate env template_id with
      | none => exact htmpl hft
      | some template =>
        have hall : ∀ uid ∈ user_ids, ∃ u, findUser env uid = some u := by
          intro uid hmem
          cases hfu : findUser env uid with
          | none => exact absurd hfu (husers uid hmem)
          | some u => exact ⟨u, rfl⟩
        obtain ⟨out, hout⟩ := apply_template_loop_ok env template start_date user_ids
          ⟨db, [], []⟩ hall
        obtain ⟨err, herr⟩ := hbad
        rw [process_template_application, hft] at herr
        dsimp only at herr
        rw [hout] at herr
        cases herr
    · intro hbad
      rcases hbad with hft | ⟨uid, hmem, hnone⟩
      · exact ⟨.notFound, by rw [process_template_application, hft]⟩
      · cases hft : findTemplate env template_id with
        | none => exact ⟨.notFound, by rw [process_template_application, hft]⟩
        | some template =>
          refine ⟨.notFound, ?_⟩
          rw [process_template_application, hft]
          exact apply_template_loop_error env template start_date user_ids
            ⟨db, [], []⟩ ⟨uid, hmem, hnone⟩
  · intro err herr
    simp [run1, execOp, herr, Except.map]
  · intro hmiss
    exact bulk_create_loop_error env s e user_ids (db, []) hmiss
  · intro err herr
    simp [run1, execOp, herr, Except.map]
  · intro hall
    exact bulk_create_loop_all_conflict env s e user_ids (db, []) hall

/-- Witness for C8 at concrete requests: a missing template id aborts
template application with nothing persisted; a missing user id makes bulk
creation fail; all-conflicting users let bulk creation complete with the
table unchanged. -/
theorem batch_error_semantics_witness :
    run1 bulkEnv bulkDB (.applyTemplate 99 0 [1]) = bulkDB ∧
      (∃ err, bulk_create_schedule_events bulkEnv bulkDB [3] 0 4 = .error err) ∧
      (∃ skips, bulk_create_schedule_events bulkEnv bulkDB [2] 0 4 = .ok (bulkDB, skips)) :=
  ⟨(batch_error_semantics bulkEnv bulkDB 99 0 [1] 0 4).2.1 .notFound rfl,
    (batch_error_semantics bulkEnv bulkDB 99 0 [3] 0 4).2.2.1 ⟨3, by decide, rfl⟩,
    (batch_error_semantics bulkEnv bulkDB 99 0 [2] 0 4).2.2.2.2 (by decide)⟩

/-- One template-day loop iteration keeps the base table a prefix and
appends to the table exactly what it appends to `created`. -/
theorem template_day_step_frame (user : UserRec) (start_date : Nat) (acc : TemplateOut)
    (template_day : TemplateDay) (base : List Event)
    (h : acc.db.events = base ++ acc.created) :
    (template_day_step user start_date acc template_day).db.events =
      base ++ (template_day_step user start_date acc template_day).created := by
  rw [template_day_step_eq]
  cases template_day.shift with
  | none => exact h
  | some sh =>
    dsimp only
    by_cases hk : check_schedule_conflicts acc.db.events user.id
        (calculate_event_date template_day start_date) = true
    · rw [if_pos hk]
      exact h
    · rw [if_neg hk]
      show acc.db.events ++ _ = base ++ (acc.created ++ _)
      rw [h, List.append_assoc]

theorem days_foldl_frame (user : UserRec) (start_date : Nat) :
    ∀ (days : List TemplateDay) (acc : TemplateOut) (base : List Event),
      acc.db.events = base ++ acc.created →
      (days.foldl (template_day_step user start_date) acc).db.events =
        base ++ (days.foldl (template_day_step user start_date) acc).created := by
  intro days
  induction days with
  | nil =>
    intro acc base h
    simpa using h
  | cons d rest ih =>
    intro acc base h
    rw [List.foldl_cons]
    exact ih _ base (template_day_step_frame user start_date acc d base h)

theorem apply_template_loop_frame (env : Env) (template : TemplateRec) (start_date : Nat) :
    ∀ (uids : List Nat) (acc out : TemplateOut) (base : List Event),
      acc.db.events = base ++ acc.created →
      apply_template_loop env template start_date uids acc = .ok out →
      out.db.events = base ++ out.created := by
  intro uids
  induction uids with
  | nil =>
    intro acc out base h hrun
    simp only [apply_template_loop] at hrun
    injection hrun with h2
    rw [← h2]
    exact h
  | cons uid rest ih =>
    intro acc out base h hrun
    simp only [apply_template_loop] at hrun
    cases hfu : findUser env uid with
    | none =>
      rw [hfu] at hrun
      simp at hrun
    | some user =>
      rw [hfu] at hrun
      exact ih _ out base
        (days_foldl_frame user start_date template.days acc base h) hrun

/-- C10: batch operations only insert — a successful template application
leaves every pre-existing row in place (the old table is a prefix of the
new one, which is the old table plus exactly the created events), a
successful bulk creation leaves the table unchanged, and a conflicting
(user, date) pair writes nothing at all. -/
theorem batch_frame (env : Env) (db : DB) (template_id start_date : Nat)
    (user_ids : List Nat) (s e : Nat) :
    (∀ out, process_template_application env db template_id start_date user_ids = .ok out →
      out.db.events = db.events ++ out.created) ∧
    (∀ r, bulk_create_schedule_events env db user_ids s e = .ok r → r.1 = db) ∧
    (∀ (user : UserRec) (sd : Nat) (acc : TemplateOut) (template_day : TemplateDay)
        (sh : ShiftRec), template_day.shift = some sh →
      check_schedule_conflicts acc.db.events user.id (calculate_event_date template_day sd)
        = true →
      (template_day_step user sd acc template_day).db = acc.db) := by
  refine ⟨?_, ?_, ?_⟩
  · intro out hout
    unfold process_template_application at hout
    cases hft : findTemplate env template_id with
    | none =>
      rw [hft] at hout
      simp at hout
    | some template =>
      rw [hft] at hout
      exact apply_template_loop_frame env template start_date user_ids ⟨db, [], []⟩ out
        db.events (by simp) hout
  · intro r hr
    exact bulk_create_loop_db env s e user_ids (db, []) r hr
  · intro user sd acc template_day sh hsh hk
    rw [template_day_step_eq, hsh]
    dsimp only
    rw [if_pos hk]

/-- Witness for C10 at concrete batches: the template application of the
C4 witness only appends its created events to the table; the bulk request
over the all-conflicting user list returns the table unchanged; the
conflicting pair of the C4 witness writes nothing. -/
theorem batch_frame_witness :
    outW.db.events = (⟨[], 0⟩ : DB).events ++ outW.created ∧
      ((bulkDB, [(⟨2, "B", "Schedule conflict"⟩ : BSkip)]) : DB × List BSkip).1 = bulkDB ∧
      (template_day_step uA 2 accConflict tdMon).db = accConflict.db :=
  ⟨(batch_frame tEnv ⟨[], 0⟩ 5 2 [1] 0 4).1 outW rfl,
    (batch_frame bulkEnv bulkDB 99 0 [2] 0 4).2.1 (bulkDB, [⟨2, "B", "Schedule conflict"⟩]) rfl,
    (batch_frame tEnv ⟨[], 0⟩ 5 2 [1] 0 4).2.2 uA 2 accConflict tdMon shMorning rfl rfl⟩

